import Mathlib

/-!
Shallow embedding of the fileverse-agents file-lifecycle orchestrator
(`src/unnamed/part_003`, the `Agent` class with a pluggable
`dataAccessProvider`), of the TACo service chain-id defaulting
(`src/services/TacoService.js`) and of the TACo decryption error
translation (`src/agent/TacoEncryption.js`).

External collaborators (the Pinata storage provider, the smart-account
client and the threshold-encryption network) are modelled through the
exact interface surface the orchestrator uses: uploads return fresh
protocol-prefixed references, `sendUserOperation` returns a transaction
hash and applies the requested portal call to the on-chain file map,
`unpin` either succeeds (removing the pin) or throws, and the data
access provider's `encrypt`/`decrypt` are abstract function fields.
Every externally visible side effect is recorded in an event trace.
-/

namespace Fileverse

/-- `FileType` enum from `src/config/constants.js`
(PUBLIC: 0, PRIVATE: 1, GATED: 2, MEMBER_PRIVATE: 3). -/
inductive FileType where
  | PUBLIC
  | PRIVATE
  | GATED
  | MEMBER_PRIVATE
deriving DecidableEq, Repr, Inhabited

/-- Numeric value of the enum as written on-chain. -/
def FileType.toNat : FileType → Nat
  | .PUBLIC => 0
  | .PRIVATE => 1
  | .GATED => 2
  | .MEMBER_PRIVATE => 3

/-- The serialisable configuration a data access provider exposes for
file metadata (`TacoProvider.getMetadataConfig` in
`src/data-access/taco.js`). -/
structure DataAccessConfig where
  providerType : String
  domain : String
  ritualId : Nat
deriving DecidableEq, Repr

/-- The file-metadata JSON object.  Each field is optional because
`getFile` degrades to the empty object `{}` (all fields absent) when the
metadata blob cannot be downloaded or parsed. -/
structure Metadata where
  name : Option String := none
  description : Option String := none
  contentIpfsHash : Option String := none
  encrypted : Option Bool := none
  dataAccessConfig : Option DataAccessConfig := none
deriving DecidableEq, Repr

/-- The empty metadata object `{}`. -/
def Metadata.empty : Metadata := {}

/-- File content accepted by `create`/`update`: a string or a plain
object (`typeof output === "string" || typeof output === "object"`). -/
inductive Content where
  | str (s : String)
  | obj (fields : List (String × String))
deriving DecidableEq, Repr

/-- `create`'s content validation: `!output` rejects the empty string
(JS falsiness) and any non-string/non-object value; a plain object is
always accepted. -/
def validContent : Content → Bool
  | .str s => !s.isEmpty
  | .obj _ => true

/-- A blob held by the storage provider.  A stored string either parses
as a JSON metadata object (`jsonMeta`) or does not (`rawStr`); `bin` is
binary data such as an encrypted message kit. -/
inductive Blob where
  | jsonMeta (m : Metadata)
  | rawStr (s : String)
  | bin (b : List Nat)
deriving DecidableEq, Repr

/-- How uploaded content is stored: strings verbatim, objects via the
`File` constructor's string coercion. -/
def Content.toBlob : Content → Blob
  | .str s => .rawStr s
  | .obj _ => .rawStr "[object Object]"

/-- One on-chain file record of the portal contract
(`files(fileId) -> (metadataIPFSHash, contentIPFSHash, gateIPFSHash,
fileType, version)`). -/
structure FileRecord where
  metadataIpfsHash : String
  contentIpfsHash : String
  gateIpfsHash : String
  filetype : FileType
  version : Nat
deriving DecidableEq, Repr, Inhabited

/-- A portal-contract call submitted through
`smartAccountClient.sendUserOperation`. -/
inductive ChainCall where
  | addFile (metadataIpfsHash contentIpfsHash gateIpfsHash : String)
      (filetype : FileType) (version : Nat)
  | editFile (fileId : Nat) (metadataIpfsHash contentIpfsHash gateIpfsHash : String)
      (filetype : FileType) (version : Nat)
deriving DecidableEq, Repr

/-- Externally visible side effects of one orchestrator call. -/
inductive Event where
  | upload (fileName : String) (ref : String) (blob : Blob)
  | userOp (call : ChainCall)
  | unpinOk (ref : String)
  | unpinFail (ref : String)
deriving DecidableEq, Repr

/-- A configured data access provider (the `AccessProvider` surface the
orchestrator consumes): `encrypt`, `decrypt`, `getMetadataConfig` and
the outcome of `validateConfig`. -/
structure Provider (γ κ : Type) where
  encrypt : Content → γ → List Nat
  decrypt : Blob → Option κ → Except String String
  metadataConfig : DataAccessConfig
  validateOk : Bool

/-- The provisioned portal record (only the address is consumed by the
file lifecycle). -/
structure Portal where
  portalAddress : String
deriving DecidableEq, Repr

/-- The orchestrator state: agent fields plus the state of its external
collaborators.  `unpinFails` is the set of references whose `unpin`
throws; `protocol` is the storage provider's protocol prefix
(`"ipfs://"` for Pinata). -/
structure AgentState (γ κ : Type) where
  safeAccount : Bool
  portal : Option Portal
  nspace : String
  dataAccessProvider : Option (Provider γ κ)
  providerValidated : Bool
  storage : List (String × Blob)
  nextRef : Nat
  chain : List (Nat × FileRecord)
  nextFileId : Nat
  txCounter : Nat
  protocol : String
  unpinFails : List String

/-- Storage download: the blob pinned under a reference, `none` when the
download throws (reference unknown/unpinned).  The most recent pin under
a reference wins. -/
def storageLookup : List (String × Blob) → String → Option Blob
  | [], _ => none
  | (r, b) :: rest, ref => if r = ref then some b else storageLookup rest ref

/-- On-chain read of the portal's file map. -/
def chainLookup : List (Nat × FileRecord) → Nat → Option FileRecord
  | [], _ => none
  | (k, r) :: rest, fileId => if k = fileId then some r else chainLookup rest fileId

/-- `editFile` semantics on the contract's storage mapping: writing
`files[fileId]` overwrites the record in place (or materialises the
slot); it never removes an entry. -/
def chainSet : List (Nat × FileRecord) → Nat → FileRecord → List (Nat × FileRecord)
  | [], fileId, r => [(fileId, r)]
  | (k, r0) :: rest, fileId, r =>
      if k = fileId then (fileId, r) :: rest else (k, r0) :: chainSet rest fileId r

/-- Fresh content-addressed reference returned by `upload`. -/
def mkRef (protocol : String) (n : Nat) : String :=
  protocol ++ "cid" ++ toString n

/-- Transaction hash returned by `sendUserOperation`. -/
def mkTxHash (n : Nat) : String :=
  "0xuserop" ++ toString n

/-- `uploadToStorage`: pin a blob under a fresh reference.  The new pin
is prepended so that the most recent pin under a reference wins on
download. -/
def uploadToStorage {γ κ : Type} (st : AgentState γ κ) (fileName : String) (blob : Blob) :
    String × AgentState γ κ × Event :=
  let ref := mkRef st.protocol st.nextRef
  (ref,
   { st with storage := (ref, blob) :: st.storage, nextRef := st.nextRef + 1 },
   .upload fileName ref blob)

/-- `smartAccountClient.sendUserOperation` followed by
`waitForUserOperationReceipt`: returns the transaction hash and applies
the portal call to the on-chain file map (`addFile` assigns the next
file id, `editFile` overwrites the addressed record). -/
def sendUserOperation {γ κ : Type} (st : AgentState γ κ) (call : ChainCall) :
    String × AgentState γ κ × Event :=
  let hash := mkTxHash st.txCounter
  let st' :=
    match call with
    | .addFile m c g ft v =>
        { st with
          chain := st.chain ++ [(st.nextFileId, ⟨m, c, g, ft, v⟩)],
          nextFileId := st.nextFileId + 1,
          txCounter := st.txCounter + 1 }
    | .editFile fid m c g ft v =>
        { st with chain := chainSet st.chain fid ⟨m, c, g, ft, v⟩,
                  txCounter := st.txCounter + 1 }
  (hash, st', .userOp call)

/-- One `unpin` call: throws exactly on the references in
`st.unpinFails`, otherwise removes the pin. -/
def unpinOne {γ κ : Type} (st : AgentState γ κ) (ref : String) :
    Bool × AgentState γ κ × Event :=
  if st.unpinFails.contains ref then
    (false, st, .unpinFail ref)
  else
    (true, { st with storage := st.storage.filter (fun p => p.1 != ref) }, .unpinOk ref)

/-- The shared cleanup block of `update`/`delete`:

    try {
      await this.storageProvider.unpin(metadataIpfsHash);
      await this.storageProvider.unpin(contentIpfsHash);
    } catch (error) { console.error(...); }

Both `await`s sit in one `try`, so a throw from the first unpin skips
the second; either way the error is swallowed. -/
def tryUnpinBoth {γ κ : Type} (st : AgentState γ κ) (mref cref : String) :
    AgentState γ κ × List Event :=
  let r1 := unpinOne st mref
  if r1.1 then
    let r2 := unpinOne r1.2.1 cref
    (r2.2.1, [r1.2.2, r2.2.2])
  else
    (r1.2.1, [r1.2.2])

/-- The distinguishable rejection reasons of the orchestrator's
operations; each constructor corresponds to one `throw` site of
`src/unnamed/part_003`. -/
inductive AgentError where
  /-- "Output content is required and must be a string or object" -/
  | invalidContent
  /-- "Storage not setup yet!" (prechecks) -/
  | notSetup
  /-- "Portal not found!" (prechecks) -/
  | portalNotFound
  /-- "Data access provider is required for encrypted files. ..." -/
  | providerRequired
  /-- `dataAccessProvider.validateConfig()` threw on first use -/
  | providerValidationFailed
  /-- "Invalid file ID provided" -/
  | invalidFileId
  /-- "Cannot decrypt encrypted file. Data access provider required ..." -/
  | providerRequiredForDecrypt
  /-- provider `decrypt` threw; the error propagates to the caller -/
  | decryptionFailed (msg : String)
  /-- "Failed to download file content for fileId ..." -/
  | downloadFailed
  /-- `downloadBytes` threw while fetching ciphertext -/
  | downloadBytesFailed
  /-- "File deletion failed." (outer catch of `delete`) -/
  | deletionFailed
deriving DecidableEq, Repr

/-- Result of a successful `create`. -/
structure CreateResult (γ : Type) where
  hash : String
  fileId : Nat
  portalAddress : String
  encrypted : Bool
  accessCondition : Option γ
deriving DecidableEq, Repr

/-- Result of a successful `update`/`delete`: the transaction
descriptor `{hash, fileId, portalAddress}`. -/
structure TxResult where
  hash : String
  fileId : Nat
  portalAddress : String
deriving DecidableEq, Repr

/-- The `options` argument of `create`/`update`. -/
structure Options (γ : Type) where
  accessCondition : Option γ := none

/-- The `if (options.accessCondition) { ... }` block shared verbatim by
`create` and `update`: requires a configured provider, validates it on
first use, encrypts, and switches the filename, `encrypted` flag,
provider metadata and filetype.  Returns the state with
`_providerValidated` possibly set. -/
def accessConditionBranch {γ κ : Type} (st : AgentState γ κ) (output : Content)
    (options : Options γ) :
    Except AgentError (Blob × String × Bool × Option DataAccessConfig × FileType × AgentState γ κ) :=
  match options.accessCondition with
  | none =>
      .ok (output.toBlob, "output.md", false, none, .PUBLIC, st)
  | some cond =>
      match st.dataAccessProvider with
      | none => .error .providerRequired
      | some p =>
          if !st.providerValidated && !p.validateOk then
            .error .providerValidationFailed
          else
            .ok (.bin (p.encrypt output cond), "encrypted_content.bin", true,
                 some p.metadataConfig, .PRIVATE,
                 { st with providerValidated := true })

/-- `Agent.create(output, options)`: validate content, run prechecks,
encrypt-or-passthrough, upload content then metadata, submit the
on-chain `addFile` call, and return the transaction with the new
`fileId` from the `AddedFile` event. -/
def Agent.create {γ κ : Type} (st : AgentState γ κ) (output : Content)
    (options : Options γ) :
    Except AgentError (CreateResult γ) × AgentState γ κ × List Event :=
  if !validContent output then (.error .invalidContent, st, [])
  else if !st.safeAccount then (.error .notSetup, st, [])
  else
    match st.portal with
    | none => (.error .portalNotFound, st, [])
    | some portal =>
        match accessConditionBranch st output options with
        | .error e => (.error e, st, [])
        | .ok (contentToUpload, filename, isEncrypted, dataAccessMetadata, filetype, st1) =>
            let up1 := uploadToStorage st1 filename contentToUpload
            let contentIpfsHash := up1.1
            let metadata : Metadata :=
              { name := some (portal.portalAddress ++ "/" ++ st1.nspace ++ "/" ++
                  (if isEncrypted then "encrypted_output.md" else "output.md")),
                description := some (if isEncrypted then
                    "Encrypted Markdown file created by FileverseAgent"
                  else "Markdown file created by FileverseAgent"),
                encrypted := some isEncrypted,
                dataAccessConfig := dataAccessMetadata }
            let up2 := uploadToStorage up1.2.1 "metadata.json" (.jsonMeta metadata)
            let metadataIpfsHash := up2.1
            let fileId := up2.2.1.nextFileId
            let op := sendUserOperation up2.2.1
              (.addFile metadataIpfsHash contentIpfsHash "" filetype 0)
            (.ok { hash := op.1, fileId, portalAddress := portal.portalAddress,
                   encrypted := isEncrypted,
                   accessCondition := if isEncrypted then options.accessCondition else none },
             op.2.1, [up1.2.2, up2.2.2, op.2.2])

/-- The `fileInfo` object returned by `getFile` (the `portal` and
`namespace` fields restricted to what the lifecycle consumes). -/
structure FileInfo where
  portalAddress : String
  nspace : String
  metadataIpfsHash : String
  contentIpfsHash : String
  metadata : Metadata
  encrypted : Bool
deriving DecidableEq, Repr

/-- `getFile`'s best-effort metadata fetch: a downloaded JSON string
parses to its object; a string that fails `JSON.parse` and a failed
download both degrade (with a warning) to the empty object; a non-string
download result carries no `encrypted` field. -/
def parseMetadataBlob : Option Blob → Metadata
  | some (.jsonMeta m) => m
  | some (.rawStr _) => {}
  | some (.bin _) => {}
  | none => {}

/-- `Agent.getFile(fileId)`: validate the id, run prechecks, read the
on-chain record (an unset mapping slot reads as zeroed strings),
best-effort fetch and parse the metadata blob, and derive the
`encrypted` flag as `metadata.encrypted || false`. -/
def Agent.getFile {γ κ : Type} (st : AgentState γ κ) (fileId : Nat) :
    Except AgentError FileInfo :=
  if fileId == 0 then .error .invalidFileId
  else if !st.safeAccount then .error .notSetup
  else
    match st.portal with
    | none => .error .portalNotFound
    | some portal =>
        let file := (chainLookup st.chain fileId).getD ⟨"", "", "", .PUBLIC, 0⟩
        let metadata := parseMetadataBlob (storageLookup st.storage file.metadataIpfsHash)
        .ok { portalAddress := portal.portalAddress,
              nspace := st.nspace,
              metadataIpfsHash := file.metadataIpfsHash,
              contentIpfsHash := file.contentIpfsHash,
              metadata,
              encrypted := metadata.encrypted.getD false }

/-- The `{...fileInfo, content, decrypted}` object returned by
`getFileContent`. -/
structure FileContentResult where
  info : FileInfo
  content : Blob
  decrypted : Bool
deriving DecidableEq, Repr

/-- `Agent.getFileContent(fileId, conditionContext?)`: `getFile`, then
decrypt through the provider when `fileInfo.metadata.encrypted` is
truthy (requiring a configured provider) or download the content
directly when it is not. -/
def Agent.getFileContent {γ κ : Type} (st : AgentState γ κ) (fileId : Nat)
    (conditionContext : Option κ := none) :
    Except AgentError FileContentResult :=
  if fileId == 0 then .error .invalidFileId
  else
    match Agent.getFile st fileId with
    | .error e => .error e
    | .ok fileInfo =>
        if fileInfo.metadata.encrypted.getD false then
          match st.dataAccessProvider with
          | some p =>
              if !st.providerValidated && !p.validateOk then
                .error .providerValidationFailed
              else
                match storageLookup st.storage fileInfo.contentIpfsHash with
                | none => .error .downloadBytesFailed
                | some blob =>
                    match p.decrypt blob conditionContext with
                    | .error msg => .error (.decryptionFailed msg)
                    | .ok s => .ok ⟨fileInfo, .rawStr s, true⟩
          | none => .error .providerRequiredForDecrypt
        else
          match storageLookup st.storage fileInfo.contentIpfsHash with
          | none => .error .downloadFailed
          | some blob => .ok ⟨fileInfo, blob, false⟩

/-- `Agent.update(fileId, output, options)`: validate, capture the
current refs via `getFile`, encrypt-or-passthrough, upload the new
content and metadata blobs, submit `editFile`, then best-effort unpin
the previous refs and return the transaction descriptor.
`validateFileContent` only rejects `null`/`undefined`, so every
`Content` value passes it. -/
def Agent.update {γ κ : Type} (st : AgentState γ κ) (fileId : Nat) (output : Content)
    (options : Options γ) :
    Except AgentError TxResult × AgentState γ κ × List Event :=
  if fileId == 0 then (.error .invalidFileId, st, [])
  else if !st.safeAccount then (.error .notSetup, st, [])
  else
    match st.portal with
    | none => (.error .portalNotFound, st, [])
    | some portal =>
        match Agent.getFile st fileId with
        | .error e => (.error e, st, [])
        | .ok fileBeforeUpdate =>
            match accessConditionBranch st output options with
            | .error e => (.error e, st, [])
            | .ok (contentToUpload, filename, isEncrypted, dataAccessMetadata, filetype, st1) =>
                let up1 := uploadToStorage st1 filename contentToUpload
                let contentIpfsHash := up1.1
                let metadata : Metadata :=
                  { name := some (portal.portalAddress ++ "/" ++ st1.nspace ++ "/" ++ filename),
                    description := some (if isEncrypted then
                        "Updated encrypted file by FileverseAgent"
                      else "Updated Markdown file by FileverseAgent"),
                    contentIpfsHash := some contentIpfsHash,
                    encrypted := some isEncrypted,
                    dataAccessConfig := dataAccessMetadata }
                let up2 := uploadToStorage up1.2.1 "metadata.json" (.jsonMeta metadata)
                let metadataIpfsHash := up2.1
                let op := sendUserOperation up2.2.1
                  (.editFile fileId metadataIpfsHash contentIpfsHash "" filetype 0)
                let cleanup := tryUnpinBoth op.2.1
                  fileBeforeUpdate.metadataIpfsHash fileBeforeUpdate.contentIpfsHash
                (.ok { hash := op.1, fileId, portalAddress := portal.portalAddress },
                 cleanup.1, [up1.2.2, up2.2.2, op.2.2] ++ cleanup.2)

/-- The tombstone suffix `DELETED_HASH = "deleted"`. -/
def DELETED_HASH : String := "deleted"

/-- `Agent.delete(fileId)`: validate, read the provider protocol,
capture the current refs via `getFile`, submit `editFile` with both
refs replaced by the protocol-prefixed sentinel, filetype `PUBLIC` and
version 0, best-effort unpin the old refs, and return the transaction
descriptor. -/
def Agent.delete {γ κ : Type} (st : AgentState γ κ) (fileId : Nat) :
    Except AgentError TxResult × AgentState γ κ × List Event :=
  if fileId == 0 then (.error .invalidFileId, st, [])
  else if !st.safeAccount then (.error .notSetup, st, [])
  else
    match st.portal with
    | none => (.error .portalNotFound, st, [])
    | some portal =>
        let protocol := st.protocol
        match Agent.getFile st fileId with
        | .error _ => (.error .deletionFailed, st, [])
        | .ok fileBeforeDelete =>
            let op := sendUserOperation st
              (.editFile fileId (protocol ++ DELETED_HASH) (protocol ++ DELETED_HASH)
                "" .PUBLIC 0)
            let cleanup := tryUnpinBoth op.2.1
              fileBeforeDelete.metadataIpfsHash fileBeforeDelete.contentIpfsHash
            (.ok { hash := op.1, fileId, portalAddress := portal.portalAddress },
             cleanup.1, op.2.2 :: cleanup.2)

/-- Number of storage uploads recorded in a trace. -/
def uploadCount (tr : List Event) : Nat :=
  (tr.filter fun e => match e with | .upload .. => true | _ => false).length

/-- The portal calls submitted through `sendUserOperation`, in order. -/
def userOpCalls (tr : List Event) : List ChainCall :=
  tr.filterMap fun e => match e with | .userOp c => some c | _ => none

/-- Number of `unpin` attempts (successful or throwing) on a given
reference. -/
def unpinAttempts (tr : List Event) (ref : String) : Nat :=
  (tr.filter fun e =>
    match e with
    | .unpinOk r => r == ref
    | .unpinFail r => r == ref
    | _ => false).length

/-- The blobs uploaded under a given file name, in order. -/
def uploadsOf (tr : List Event) (fileName : String) : List Blob :=
  tr.filterMap fun e =>
    match e with
    | .upload fn _ b => if fn == fileName then some b else none
    | _ => none

/-- The `encrypted` field of an uploaded metadata blob (`none` when the
blob is not a JSON metadata object). -/
def Blob.metaEncrypted : Blob → Option (Option Bool)
  | .jsonMeta m => some m.encrypted
  | _ => none

/-- An access condition as seen by `TacoService.encrypt`
(`src/services/TacoService.js`): the `chain` field may be absent
(`none`); the rest of the condition is opaque to the service. -/
structure TacoCondition where
  chain : Option Nat := none
  body : Nat := 0
deriving DecidableEq, Repr

/-- `TacoService.getChainId()`: the domain → default chain id mapping,
with Polygon Amoy (80002) as the fallback for unrecognised domains. -/
def TacoService.getChainId (domain : String) : Nat :=
  if domain == "lynx" then 80002
  else if domain == "DEVNET" then 80002
  else if domain == "tapir" then 80002
  else if domain == "TESTNET" then 80002
  else if domain == "MAINNET" then 137
  else 80002

/-- JS truthiness of `accessCondition.chain` as tested by
`if (!accessCondition.chain)`: an absent field and the number 0 are
both falsy. -/
def chainFalsy : Option Nat → Bool
  | none => true
  | some n => n == 0

/-- The condition `TacoService.encrypt` passes to `encryptWithViem`:
`if (!accessCondition.chain) accessCondition.chain = this.getChainId()`
mutates the condition before delegating. -/
def TacoService.encryptCondition (domain : String) (accessCondition : TacoCondition) :
    TacoCondition :=
  if chainFalsy accessCondition.chain then
    { accessCondition with chain := some (TacoService.getChainId domain) }
  else accessCondition

/-- Whether `pat` occurs as a contiguous sublist. -/
def infixOfCharList (pat : List Char) : List Char → Bool
  | [] => pat.isEmpty
  | c :: rest => pat.isPrefixOf (c :: rest) || infixOfCharList pat rest

/-- `String.includes` of the JS error-classification check. -/
def containsSubstr (s pat : String) : Bool :=
  infixOfCharList pat.toList s.toList

/-- The distinguishable rejections of `TacoEncryption.decryptContent`
(`src/agent/TacoEncryption.js`). -/
inductive TacoDecryptError where
  /-- "TACo service not initialized. Cannot decrypt content." -/
  | notInitialized
  /-- "Access denied: TACo condition not satisfied" -/
  | accessDenied (msg : String)
  /-- "Decryption failed: ..." -/
  | decryptionFailed (msg : String)
deriving DecidableEq, Repr

/-- The string tested by the threshold-failure classification. -/
def thresholdNotMet : String := "Threshold of responses not met"

/-- `TacoEncryption.decryptContent(encryptedBytes, signer)`:
`backendResult` is the outcome of the delegated
`tacoService.decryptContent` call; on a throw the error message is
classified by `errorMessage.includes("Threshold of responses not met")`
into an access-denied rejection, anything else into a decryption
failure.  A successful backend call returns the plaintext. -/
def TacoEncryption.decryptContent (initialized : Bool)
    (backendResult : Except String String) : Except TacoDecryptError String :=
  if !initialized then .error .notInitialized
  else
    match backendResult with
    | .ok content => .ok content
    | .error msg =>
        if containsSubstr msg thresholdNotMet then
          .error (.accessDenied "Access denied: TACo condition not satisfied")
        else
          .error (.decryptionFailed ("Decryption failed: " ++ msg))

/-! ### Lookup lemmas for the collaborator state -/

theorem storageLookup_cons_self (ref : String) (b : Blob) (rest : List (String × Blob)) :
    storageLookup ((ref, b) :: rest) ref = some b := by
  simp [storageLookup]

theorem chainLookup_append_fresh (l : List (Nat × FileRecord)) (k : Nat) (r : FileRecord)
    (h : ∀ p ∈ l, p.1 ≠ k) : chainLookup (l ++ [(k, r)]) k = some r := by
  induction l with
  | nil => simp [chainLookup]
  | cons hd tl ih =>
      have hne : hd.1 ≠ k := h hd (by simp)
      simpa [chainLookup, hne] using ih (fun p hp => h p (by simp [hp]))

theorem chainLookup_chainSet (l : List (Nat × FileRecord)) (k : Nat) (r : FileRecord) :
    chainLookup (chainSet l k r) k = some r := by
  induction l with
  | nil => simp [chainSet, chainLookup]
  | cons hd tl ih =>
      by_cases hk : hd.1 = k
      · simp [chainSet, chainLookup, hk]
      · simpa [chainSet, chainLookup, hk] using ih

/-! ### C1 -/

/-- C1: for every (valid) content value and every options object carrying
an access condition, `create` on an agent with no configured data access
provider rejects with the provider-required error, and at that point no
storage upload and no on-chain call has been performed. -/
theorem create_without_provider_fails_fast {γ κ : Type} (st : AgentState γ κ)
    (output : Content) (options : Options γ) (cond : γ) (portal : Portal)
    (hcontent : validContent output = true)
    (hsafe : st.safeAccount = true)
    (hportal : st.portal = some portal)
    (hcond : options.accessCondition = some cond)
    (hprov : st.dataAccessProvider = none) :
    (Agent.create st output options).1 = .error .providerRequired ∧
    uploadCount (Agent.create st output options).2.2 = 0 ∧
    userOpCalls (Agent.create st output options).2.2 = [] := by
  simp [Agent.create, accessConditionBranch, hcontent, hsafe, hportal, hcond, hprov,
        uploadCount, userOpCalls]

/-- Concrete instance of the C1 theorem. -/
def agentNoProvider : AgentState Nat Nat :=
  { safeAccount := true, portal := some ⟨"0xPortal"⟩, nspace := "agent-sepolia",
    dataAccessProvider := none, providerValidated := false,
    storage := [], nextRef := 0, chain := [], nextFileId := 1, txCounter := 0,
    protocol := "ipfs://", unpinFails := [] }

theorem create_without_provider_fails_fast_witness :
    (Agent.create agentNoProvider (.str "Hello World") ⟨some 7⟩).1
        = .error .providerRequired ∧
    uploadCount (Agent.create agentNoProvider (.str "Hello World") ⟨some 7⟩).2.2 = 0 ∧
    userOpCalls (Agent.create agentNoProvider (.str "Hello World") ⟨some 7⟩).2.2 = [] :=
  create_without_provider_fails_fast agentNoProvider (.str "Hello World") ⟨some 7⟩ 7
    ⟨"0xPortal"⟩ rfl rfl rfl rfl rfl

/-! ### C2 -/

/-- C2: `create` without an access condition writes the metadata blob
with `encrypted: false` and a subsequent `getFile` on the new id returns
`encrypted = false`; `create` with an access condition writes
`encrypted: true` and `getFile` returns `true`; and on any state the
`encrypted` flag returned by `getFile` is derived solely from the parsed
metadata blob (never from the content blob). -/
theorem encrypted_flag_consistency {γ κ : Type} (st : AgentState γ κ)
    (output : Content) (cond : γ) (p : Provider γ κ) (portal : Portal) (fid2 : Nat)
    (hcontent : validContent output = true)
    (hsafe : st.safeAccount = true)
    (hportal : st.portal = some portal)
    (hprov : st.dataAccessProvider = some p)
    (hval : p.validateOk = true)
    (hfresh : ∀ q ∈ st.chain, q.1 ≠ st.nextFileId)
    (hnz : st.nextFileId ≠ 0)
    (hfid2 : fid2 ≠ 0) :
    ((uploadsOf (Agent.create st output ⟨none⟩).2.2 "metadata.json").map Blob.metaEncrypted
        = [some (some false)] ∧
      (Agent.create st output ⟨none⟩).1.map (·.fileId) = .ok st.nextFileId ∧
      (Agent.getFile (Agent.create st output ⟨none⟩).2.1 st.nextFileId).map (·.encrypted)
        = .ok false) ∧
    ((uploadsOf (Agent.create st output ⟨some cond⟩).2.2 "metadata.json").map Blob.metaEncrypted
        = [some (some true)] ∧
      (Agent.create st output ⟨some cond⟩).1.map (·.fileId) = .ok st.nextFileId ∧
      (Agent.getFile (Agent.create st output ⟨some cond⟩).2.1 st.nextFileId).map (·.encrypted)
        = .ok true) ∧
    (Agent.getFile st fid2).map (·.encrypted)
      = .ok ((parseMetadataBlob (storageLookup st.storage
          ((chainLookup st.chain fid2).getD ⟨"", "", "", .PUBLIC, 0⟩).metadataIpfsHash)).encrypted.getD
            false) := by
  have hlook : chainLookup
      (st.chain ++ [(st.nextFileId,
        ⟨mkRef st.protocol (st.nextRef + 1), mkRef st.protocol st.nextRef, "", .PUBLIC, 0⟩)])
      st.nextFileId = some
        ⟨mkRef st.protocol (st.nextRef + 1), mkRef st.protocol st.nextRef, "", .PUBLIC, 0⟩ :=
    chainLookup_append_fresh _ _ _ hfresh
  have hlook' : chainLookup
      (st.chain ++ [(st.nextFileId,
        ⟨mkRef st.protocol (st.nextRef + 1), mkRef st.protocol st.nextRef, "", .PRIVATE, 0⟩)])
      st.nextFileId = some
        ⟨mkRef st.protocol (st.nextRef + 1), mkRef st.protocol st.nextRef, "", .PRIVATE, 0⟩ :=
    chainLookup_append_fresh _ _ _ hfresh
  refine ⟨⟨?_, ?_, ?_⟩, ⟨?_, ?_, ?_⟩, ?_⟩ <;>
    simp [Agent.create, Agent.getFile, accessConditionBranch, uploadToStorage,
      sendUserOperation, uploadsOf, parseMetadataBlob, storageLookup, Blob.metaEncrypted,
      Except.map, hcontent, hsafe, hportal, hprov, hval, hnz, hfid2, hlook, hlook']

/-- A configured data access provider used by the concrete instances. -/
def sampleProvider : Provider Nat Nat :=
  { encrypt := fun _ c => [c, 9, 9],
    decrypt := fun _ _ => .ok "plain",
    metadataConfig := ⟨"TacoProvider", "lynx", 27⟩,
    validateOk := true }

/-- A provisioned agent with a configured provider and empty
collaborator state. -/
def agentWithProvider : AgentState Nat Nat :=
  { safeAccount := true, portal := some ⟨"0xPortal"⟩, nspace := "agent-sepolia",
    dataAccessProvider := some sampleProvider, providerValidated := false,
    storage := [], nextRef := 0, chain := [], nextFileId := 1, txCounter := 0,
    protocol := "ipfs://", unpinFails := [] }

theorem encrypted_flag_consistency_witness :
    ((uploadsOf (Agent.create agentWithProvider (.str "Hello") ⟨none⟩).2.2
        "metadata.json").map Blob.metaEncrypted = [some (some false)] ∧
      (Agent.create agentWithProvider (.str "Hello") ⟨none⟩).1.map (·.fileId) = .ok 1 ∧
      (Agent.getFile (Agent.create agentWithProvider (.str "Hello") ⟨none⟩).2.1 1).map
        (·.encrypted) = .ok false) ∧
    ((uploadsOf (Agent.create agentWithProvider (.str "Hello") ⟨some 5⟩).2.2
        "metadata.json").map Blob.metaEncrypted = [some (some true)] ∧
      (Agent.create agentWithProvider (.str "Hello") ⟨some 5⟩).1.map (·.fileId) = .ok 1 ∧
      (Agent.getFile (Agent.create agentWithProvider (.str "Hello") ⟨some 5⟩).2.1 1).map
        (·.encrypted) = .ok true) ∧
    (Agent.getFile agentWithProvider 3).map (·.encrypted)
      = .ok ((parseMetadataBlob (storageLookup agentWithProvider.storage
          ((chainLookup agentWithProvider.chain 3).getD
            ⟨"", "", "", .PUBLIC, 0⟩).metadataIpfsHash)).encrypted.getD false) :=
  encrypted_flag_consistency agentWithProvider (.str "Hello") 5 sampleProvider
    ⟨"0xPortal"⟩ 3 rfl rfl rfl rfl rfl (by simp [agentWithProvider]) (by decide) (by decide)

/-! ### C3 -/

/-- C3: `update` on a file whose current metadata declares
`encrypted: true`, called with options omitting the access condition,
writes the new metadata blob with `encrypted: false` and submits the
on-chain `editFile` call with filetype `PUBLIC` — the update degrades
the encrypted file to a public one. -/
theorem update_degrades_encrypted_to_public {γ κ : Type} (st : AgentState γ κ)
    (fid : Nat) (output : Content) (portal : Portal) (file0 : FileRecord) (m0 : Metadata)
    (hfid : fid ≠ 0)
    (hsafe : st.safeAccount = true)
    (hportal : st.portal = some portal)
    (hrec : chainLookup st.chain fid = some file0)
    (hmeta : storageLookup st.storage file0.metadataIpfsHash = some (.jsonMeta m0))
    (henc : m0.encrypted = some true) :
    (uploadsOf (Agent.update st fid output ⟨none⟩).2.2 "metadata.json").map Blob.metaEncrypted
      = [some (some false)] ∧
    userOpCalls (Agent.update st fid output ⟨none⟩).2.2
      = [.editFile fid (mkRef st.protocol (st.nextRef + 1)) (mkRef st.protocol st.nextRef)
          "" .PUBLIC 0] ∧
    (Agent.update st fid output ⟨none⟩).1
      = .ok ⟨mkTxHash st.txCounter, fid, portal.portalAddress⟩ := by
  by_cases hA : file0.metadataIpfsHash ∈ st.unpinFails <;>
    by_cases hB : file0.contentIpfsHash ∈ st.unpinFails <;>
      (refine ⟨?_, ?_, ?_⟩ <;>
        simp [Agent.update, Agent.getFile, accessConditionBranch, uploadToStorage,
          sendUserOperation, tryUnpinBoth, unpinOne, uploadsOf, userOpCalls,
          Blob.metaEncrypted, parseMetadataBlob, hfid, hsafe, hportal, hrec, hmeta,
          henc, hA, hB])

/-- Metadata of the concrete encrypted file. -/
def encFileMetadata : Metadata :=
  { encrypted := some true, dataAccessConfig := some ⟨"TacoProvider", "lynx", 27⟩ }

/-- A provisioned agent holding one encrypted file (id 1). -/
def agentWithEncryptedFile : AgentState Nat Nat :=
  { safeAccount := true, portal := some ⟨"0xPortal"⟩, nspace := "agent-sepolia",
    dataAccessProvider := some sampleProvider, providerValidated := true,
    storage := [("ipfs://cidM", .jsonMeta encFileMetadata),
                ("ipfs://cidC", .bin [4, 8, 15])],
    nextRef := 2, chain := [(1, ⟨"ipfs://cidM", "ipfs://cidC", "", .PRIVATE, 0⟩)],
    nextFileId := 2, txCounter := 1, protocol := "ipfs://", unpinFails := [] }

theorem update_degrades_encrypted_to_public_witness :
    (uploadsOf (Agent.update agentWithEncryptedFile 1 (.str "v2") ⟨none⟩).2.2
        "metadata.json").map Blob.metaEncrypted = [some (some false)] ∧
    userOpCalls (Agent.update agentWithEncryptedFile 1 (.str "v2") ⟨none⟩).2.2
      = [.editFile 1 (mkRef "ipfs://" 3) (mkRef "ipfs://" 2) "" .PUBLIC 0] ∧
    (Agent.update agentWithEncryptedFile 1 (.str "v2") ⟨none⟩).1
      = .ok ⟨mkTxHash 1, 1, "0xPortal"⟩ :=
  update_degrades_encrypted_to_public agentWithEncryptedFile 1 (.str "v2")
    ⟨"0xPortal"⟩ ⟨"ipfs://cidM", "ipfs://cidC", "", .PRIVATE, 0⟩ encFileMetadata
    (by decide) rfl rfl (by simp [agentWithEncryptedFile, chainLookup])
    (by simp [agentWithEncryptedFile, storageLookup]) rfl

/-! ### C4 -/

/-- C4: when the on-chain edit succeeds but `unpin` throws on a previous
reference, `update` and `delete` still resolve successfully with the
transaction descriptor `{hash, fileId, portalAddress}`; the unpin
failure is never propagated. -/
theorem unpin_failure_not_propagated {γ κ : Type} (st : AgentState γ κ)
    (fid : Nat) (output : Content) (options : Options γ) (portal : Portal)
    (file0 : FileRecord)
    (hfid : fid ≠ 0)
    (hsafe : st.safeAccount = true)
    (hportal : st.portal = some portal)
    (hrec : chainLookup st.chain fid = some file0)
    (hopt : options.accessCondition = none ∨
      ∃ p, st.dataAccessProvider = some p ∧
        (st.providerValidated = true ∨ p.validateOk = true))
    (hfail : file0.metadataIpfsHash ∈ st.unpinFails ∨
      file0.contentIpfsHash ∈ st.unpinFails) :
    (Agent.update st fid output options).1
      = .ok ⟨mkTxHash st.txCounter, fid, portal.portalAddress⟩ ∧
    (Agent.delete st fid).1
      = .ok ⟨mkTxHash st.txCounter, fid, portal.portalAddress⟩ := by
  have hdel : (Agent.delete st fid).1
      = .ok ⟨mkTxHash st.txCounter, fid, portal.portalAddress⟩ := by
    by_cases hA : file0.metadataIpfsHash ∈ st.unpinFails <;>
      by_cases hB : file0.contentIpfsHash ∈ st.unpinFails <;>
        simp [Agent.delete, Agent.getFile, sendUserOperation, tryUnpinBoth, unpinOne,
          hfid, hsafe, hportal, hrec, hA, hB]
  refine ⟨?_, hdel⟩
  rcases hopt with hnone | ⟨p, hp, hval⟩
  · by_cases hA : file0.metadataIpfsHash ∈ st.unpinFails <;>
      by_cases hB : file0.contentIpfsHash ∈ st.unpinFails <;>
        simp [Agent.update, Agent.getFile, accessConditionBranch, uploadToStorage,
          sendUserOperation, tryUnpinBoth, unpinOne,
          hfid, hsafe, hportal, hrec, hnone, hA, hB]
  · rcases hval with hv | hv <;>
      rcases hc : options.accessCondition with _ | cond <;>
        by_cases hA : file0.metadataIpfsHash ∈ st.unpinFails <;>
          by_cases hB : file0.contentIpfsHash ∈ st.unpinFails <;>
            simp [Agent.update, Agent.getFile, accessConditionBranch, uploadToStorage,
              sendUserOperation, tryUnpinBoth, unpinOne,
              hfid, hsafe, hportal, hrec, hp, hv, hc, hA, hB]

/-- The encrypted-file agent with an unpin collaborator that throws on
the file's previous metadata reference. -/
def agentUnpinFailing : AgentState Nat Nat :=
  { agentWithEncryptedFile with unpinFails := ["ipfs://cidM"] }

theorem unpin_failure_not_propagated_witness :
    (Agent.update agentUnpinFailing 1 (.str "v2") ⟨none⟩).1
      = .ok ⟨mkTxHash 1, 1, "0xPortal"⟩ ∧
    (Agent.delete agentUnpinFailing 1).1
      = .ok ⟨mkTxHash 1, 1, "0xPortal"⟩ :=
  unpin_failure_not_propagated agentUnpinFailing 1 (.str "v2") ⟨none⟩
    ⟨"0xPortal"⟩ ⟨"ipfs://cidM", "ipfs://cidC", "", .PRIVATE, 0⟩
    (by decide) rfl rfl (by simp [agentUnpinFailing, agentWithEncryptedFile, chainLookup])
    (.inl rfl) (.inl (by simp [agentUnpinFailing]))

/-! ### C5 -/

/-- C5 is refuted at a concrete input: the two unpin calls of `update`
sit in a single `try` block, so when `unpin` throws on the previous
metadata reference the previous content reference is never attempted,
even though the update itself resolves successfully. -/
theorem unpin_both_attempted_counterexample :
    (Agent.update agentUnpinFailing 1 (.str "v2") ⟨none⟩).1
      = .ok ⟨mkTxHash 1, 1, "0xPortal"⟩ ∧
    unpinAttempts (Agent.update agentUnpinFailing 1 (.str "v2") ⟨none⟩).2.2
      "ipfs://cidM" = 1 ∧
    unpinAttempts (Agent.update agentUnpinFailing 1 (.str "v2") ⟨none⟩).2.2
      "ipfs://cidC" = 0 := by
  refine ⟨rfl, rfl, rfl⟩

/-- C5 amended: every successful `update` and `delete` attempts to unpin
the previous metadata reference, and attempts the previous content
reference exactly when the metadata unpin did not throw; a throwing
metadata unpin skips the content unpin (both sit in one try/catch whose
failure is swallowed). -/
theorem unpin_previous_refs_best_effort {γ κ : Type} (st : AgentState γ κ)
    (fid : Nat) (output : Content) (options : Options γ) (portal : Portal)
    (file0 : FileRecord)
    (hfid : fid ≠ 0)
    (hsafe : st.safeAccount = true)
    (hportal : st.portal = some portal)
    (hrec : chainLookup st.chain fid = some file0)
    (hopt : options.accessCondition = none ∨
      ∃ p, st.dataAccessProvider = some p ∧
        (st.providerValidated = true ∨ p.validateOk = true))
    (hne : file0.metadataIpfsHash ≠ file0.contentIpfsHash) :
    (unpinAttempts (Agent.update st fid output options).2.2 file0.metadataIpfsHash = 1 ∧
     unpinAttempts (Agent.update st fid output options).2.2 file0.contentIpfsHash
       = (if file0.metadataIpfsHash ∈ st.unpinFails then 0 else 1)) ∧
    (unpinAttempts (Agent.delete st fid).2.2 file0.metadataIpfsHash = 1 ∧
     unpinAttempts (Agent.delete st fid).2.2 file0.contentIpfsHash
       = (if file0.metadataIpfsHash ∈ st.unpinFails then 0 else 1)) := by
  have hbe : (file0.metadataIpfsHash == file0.contentIpfsHash) = false := by
    simpa using hne
  have hbe2 : (file0.contentIpfsHash == file0.metadataIpfsHash) = false := by
    simpa using Ne.symm hne
  have hdel : unpinAttempts (Agent.delete st fid).2.2 file0.metadataIpfsHash = 1 ∧
      unpinAttempts (Agent.delete st fid).2.2 file0.contentIpfsHash
        = (if file0.metadataIpfsHash ∈ st.unpinFails then 0 else 1) := by
    by_cases hA : file0.metadataIpfsHash ∈ st.unpinFails <;>
      by_cases hB : file0.contentIpfsHash ∈ st.unpinFails <;>
        simp [Agent.delete, Agent.getFile, sendUserOperation, tryUnpinBoth, unpinOne,
          unpinAttempts, List.filter, hfid, hsafe, hportal, hrec, hA, hB, hne, Ne.symm hne, hbe, hbe2]
  refine ⟨?_, hdel⟩
  rcases hopt with hnone | ⟨p, hp, hval⟩
  · by_cases hA : file0.metadataIpfsHash ∈ st.unpinFails <;>
      by_cases hB : file0.contentIpfsHash ∈ st.unpinFails <;>
        simp [Agent.update, Agent.getFile, accessConditionBranch, uploadToStorage,
          sendUserOperation, tryUnpinBoth, unpinOne, unpinAttempts, List.filter,
          hfid, hsafe, hportal, hrec, hnone, hA, hB, hne, Ne.symm hne, hbe, hbe2]
  · rcases hval with hv | hv <;>
      rcases hc : options.accessCondition with _ | cond <;>
        by_cases hA : file0.metadataIpfsHash ∈ st.unpinFails <;>
          by_cases hB : file0.contentIpfsHash ∈ st.unpinFails <;>
            simp [Agent.update, Agent.getFile, accessConditionBranch, uploadToStorage,
              sendUserOperation, tryUnpinBoth, unpinOne, unpinAttempts, List.filter,
              hfid, hsafe, hportal, hrec, hp, hv, hc, hA, hB, hne, Ne.symm hne, hbe, hbe2]

theorem unpin_previous_refs_best_effort_witness :
    (unpinAttempts (Agent.update agentUnpinFailing 1 (.str "v2") ⟨none⟩).2.2
        "ipfs://cidM" = 1 ∧
     unpinAttempts (Agent.update agentUnpinFailing 1 (.str "v2") ⟨none⟩).2.2
        "ipfs://cidC" = (if "ipfs://cidM" ∈ agentUnpinFailing.unpinFails then 0 else 1)) ∧
    (unpinAttempts (Agent.delete agentUnpinFailing 1).2.2 "ipfs://cidM" = 1 ∧
     unpinAttempts (Agent.delete agentUnpinFailing 1).2.2 "ipfs://cidC"
        = (if "ipfs://cidM" ∈ agentUnpinFailing.unpinFails then 0 else 1)) :=
  unpin_previous_refs_best_effort agentUnpinFailing 1 (.str "v2") ⟨none⟩
    ⟨"0xPortal"⟩ ⟨"ipfs://cidM", "ipfs://cidC", "", .PRIVATE, 0⟩
    (by decide) rfl rfl (by simp [agentUnpinFailing, agentWithEncryptedFile, chainLookup])
    (.inl rfl) (by decide)

/-! ### C6 -/

/-- C6: `delete` submits exactly one on-chain `editFile` call whose
metadata and content references are both the protocol-prefixed sentinel
`"deleted"`, with empty gate reference, filetype `PUBLIC` and version 0,
returns a transaction descriptor, and leaves the on-chain record
overwritten with the tombstone — not removed. -/
theorem delete_tombstones_record {γ κ : Type} (st : AgentState γ κ)
    (fid : Nat) (portal : Portal) (file0 : FileRecord)
    (hfid : fid ≠ 0)
    (hsafe : st.safeAccount = true)
    (hportal : st.portal = some portal)
    (hrec : chainLookup st.chain fid = some file0) :
    userOpCalls (Agent.delete st fid).2.2
      = [.editFile fid (st.protocol ++ DELETED_HASH) (st.protocol ++ DELETED_HASH)
          "" .PUBLIC 0] ∧
    (Agent.delete st fid).1
      = .ok ⟨mkTxHash st.txCounter, fid, portal.portalAddress⟩ ∧
    chainLookup (Agent.delete st fid).2.1.chain fid
      = some ⟨st.protocol ++ DELETED_HASH, st.protocol ++ DELETED_HASH, "", .PUBLIC, 0⟩ := by
  have hset := chainLookup_chainSet st.chain fid
    ⟨st.protocol ++ DELETED_HASH, st.protocol ++ DELETED_HASH, "", .PUBLIC, 0⟩
  by_cases hA : file0.metadataIpfsHash ∈ st.unpinFails <;>
    by_cases hB : file0.contentIpfsHash ∈ st.unpinFails <;>
      (refine ⟨?_, ?_, ?_⟩ <;>
        simp [Agent.delete, Agent.getFile, sendUserOperation, tryUnpinBoth, unpinOne,
          userOpCalls, hfid, hsafe, hportal, hrec, hA, hB, hset])

theorem delete_tombstones_record_witness :
    userOpCalls (Agent.delete agentWithEncryptedFile 1).2.2
      = [.editFile 1 ("ipfs://" ++ DELETED_HASH) ("ipfs://" ++ DELETED_HASH)
          "" .PUBLIC 0] ∧
    (Agent.delete agentWithEncryptedFile 1).1 = .ok ⟨mkTxHash 1, 1, "0xPortal"⟩ ∧
    chainLookup (Agent.delete agentWithEncryptedFile 1).2.1.chain 1
      = some ⟨"ipfs://" ++ DELETED_HASH, "ipfs://" ++ DELETED_HASH, "", .PUBLIC, 0⟩ :=
  delete_tombstones_record agentWithEncryptedFile 1 ⟨"0xPortal"⟩
    ⟨"ipfs://cidM", "ipfs://cidC", "", .PRIVATE, 0⟩
    (by decide) rfl rfl (by simp [agentWithEncryptedFile, chainLookup])

/-! ### C7 -/

/-- C7: when the metadata blob download fails or the downloaded string
is not parseable JSON, `getFile` does not throw: it degrades to the
empty metadata object and still returns the result with
`metadataIpfsHash`, `contentIpfsHash`, `metadata` and the `encrypted`
flag. -/
theorem getFile_degrades_on_bad_metadata {γ κ : Type} (st : AgentState γ κ)
    (fid : Nat) (portal : Portal)
    (hfid : fid ≠ 0)
    (hsafe : st.safeAccount = true)
    (hportal : st.portal = some portal)
    (hmeta : storageLookup st.storage
        ((chainLookup st.chain fid).getD ⟨"", "", "", .PUBLIC, 0⟩).metadataIpfsHash = none ∨
      ∃ s, storageLookup st.storage
        ((chainLookup st.chain fid).getD ⟨"", "", "", .PUBLIC, 0⟩).metadataIpfsHash
          = some (.rawStr s)) :
    Agent.getFile st fid = .ok
      { portalAddress := portal.portalAddress,
        nspace := st.nspace,
        metadataIpfsHash :=
          ((chainLookup st.chain fid).getD ⟨"", "", "", .PUBLIC, 0⟩).metadataIpfsHash,
        contentIpfsHash :=
          ((chainLookup st.chain fid).getD ⟨"", "", "", .PUBLIC, 0⟩).contentIpfsHash,
        metadata := {},
        encrypted := false } := by
  rcases hmeta with h | ⟨s, h⟩ <;>
    simp [Agent.getFile, parseMetadataBlob, hfid, hsafe, hportal, h]

/-- An agent holding a file (id 1) that was created encrypted but whose
metadata blob is no longer downloadable; the ciphertext blob is still
pinned. -/
def agentMissingMetadata : AgentState Nat Nat :=
  { safeAccount := true, portal := some ⟨"0xPortal"⟩, nspace := "agent-sepolia",
    dataAccessProvider := some sampleProvider, providerValidated := true,
    storage := [("ipfs://cidC", .bin [4, 8, 15])],
    nextRef := 2, chain := [(1, ⟨"ipfs://cidM", "ipfs://cidC", "", .PRIVATE, 0⟩)],
    nextFileId := 2, txCounter := 1, protocol := "ipfs://", unpinFails := [] }

theorem getFile_degrades_on_bad_metadata_witness :
    Agent.getFile agentMissingMetadata 1 = .ok
      { portalAddress := "0xPortal", nspace := "agent-sepolia",
        metadataIpfsHash :=
          ((chainLookup agentMissingMetadata.chain 1).getD
            ⟨"", "", "", .PUBLIC, 0⟩).metadataIpfsHash,
        contentIpfsHash :=
          ((chainLookup agentMissingMetadata.chain 1).getD
            ⟨"", "", "", .PUBLIC, 0⟩).contentIpfsHash,
        metadata := {},
        encrypted := false } :=
  getFile_degrades_on_bad_metadata agentMissingMetadata 1 ⟨"0xPortal"⟩
    (by decide) rfl rfl
    (.inl (by simp [agentMissingMetadata, chainLookup, storageLookup]))

/-! ### C10 -/

/-- C10: when the metadata blob cannot be downloaded or parsed,
`getFile` reports `encrypted = false`, so for a file created encrypted
whose metadata is unavailable `getFileContent` takes the public-file
branch and returns the raw ciphertext bytes as content with
`decrypted: false` instead of failing or attempting decryption. -/
theorem missing_metadata_yields_raw_ciphertext {γ κ : Type} (st : AgentState γ κ)
    (fid : Nat) (portal : Portal) (ctx : Option κ) (b : List Nat)
    (hfid : fid ≠ 0)
    (hsafe : st.safeAccount = true)
    (hportal : st.portal = some portal)
    (hmeta : storageLookup st.storage
        ((chainLookup st.chain fid).getD ⟨"", "", "", .PUBLIC, 0⟩).metadataIpfsHash = none ∨
      ∃ s, storageLookup st.storage
        ((chainLookup st.chain fid).getD ⟨"", "", "", .PUBLIC, 0⟩).metadataIpfsHash
          = some (.rawStr s))
    (hcipher : storageLookup st.storage
        ((chainLookup st.chain fid).getD ⟨"", "", "", .PUBLIC, 0⟩).contentIpfsHash
          = some (.bin b)) :
    (Agent.getFile st fid).map (·.encrypted) = .ok false ∧
    Agent.getFileContent st fid ctx = .ok
      { info :=
          { portalAddress := portal.portalAddress,
            nspace := st.nspace,
            metadataIpfsHash :=
              ((chainLookup st.chain fid).getD ⟨"", "", "", .PUBLIC, 0⟩).metadataIpfsHash,
            contentIpfsHash :=
              ((chainLookup st.chain fid).getD ⟨"", "", "", .PUBLIC, 0⟩).contentIpfsHash,
            metadata := {},
            encrypted := false },
        content := .bin b,
        decrypted := false } := by
  rcases hmeta with h | ⟨s, h⟩ <;>
    simp [Agent.getFile, Agent.getFileContent, parseMetadataBlob, Except.map,
      hfid, hsafe, hportal, h, hcipher]

theorem missing_metadata_yields_raw_ciphertext_witness :
    (Agent.getFile agentMissingMetadata 1).map (·.encrypted) = .ok false ∧
    Agent.getFileContent agentMissingMetadata 1 (some 0) = .ok
      { info :=
          { portalAddress := "0xPortal", nspace := "agent-sepolia",
            metadataIpfsHash :=
              ((chainLookup agentMissingMetadata.chain 1).getD
                ⟨"", "", "", .PUBLIC, 0⟩).metadataIpfsHash,
            contentIpfsHash :=
              ((chainLookup agentMissingMetadata.chain 1).getD
                ⟨"", "", "", .PUBLIC, 0⟩).contentIpfsHash,
            metadata := {},
            encrypted := false },
        content := .bin [4, 8, 15],
        decrypted := false } :=
  missing_metadata_yields_raw_ciphertext agentMissingMetadata 1 ⟨"0xPortal"⟩
    (some 0) [4, 8, 15] (by decide) rfl rfl
    (.inl (by simp [agentMissingMetadata, chainLookup, storageLookup]))
    (by simp [agentMissingMetadata, chainLookup, storageLookup])

/-! ### C8 -/

/-- C8: when the delegated decrypt call fails, `decryptContent` rejects:
a threshold-of-responses-not-met failure is translated to the
access-denied error, any other failure to a decryption error, the two
are distinguishable, and plaintext is never returned. -/
theorem decrypt_error_translation (msg : String) :
    (containsSubstr msg thresholdNotMet = true →
      TacoEncryption.decryptContent true (.error msg)
        = .error (.accessDenied "Access denied: TACo condition not satisfied")) ∧
    (containsSubstr msg thresholdNotMet = false →
      TacoEncryption.decryptContent true (.error msg)
        = .error (.decryptionFailed ("Decryption failed: " ++ msg))) ∧
    (∀ s, TacoEncryption.decryptContent true (.error msg) ≠ .ok s) ∧
    (∀ m m', TacoDecryptError.accessDenied m ≠ TacoDecryptError.decryptionFailed m') := by
  refine ⟨fun h => by simp [TacoEncryption.decryptContent, h],
          fun h => by simp [TacoEncryption.decryptContent, h],
          fun s => ?_, fun m m' => by simp⟩
  by_cases h : containsSubstr msg thresholdNotMet <;>
    simp [TacoEncryption.decryptContent, h]

theorem decrypt_error_translation_witness :
    TacoEncryption.decryptContent true
        (.error "TACo decryption failed: Threshold of responses not met; 2 of 4")
      = .error (.accessDenied "Access denied: TACo condition not satisfied") ∧
    TacoEncryption.decryptContent true (.error "network unreachable")
      = .error (.decryptionFailed "Decryption failed: network unreachable") :=
  ⟨(decrypt_error_translation
      "TACo decryption failed: Threshold of responses not met; 2 of 4").1 (by decide),
   (decrypt_error_translation "network unreachable").2.1 (by decide)⟩

/-! ### C9 -/

/-- C9 is refuted at a concrete input: a condition that carries the
chain field with value 0 is JS-falsy, so `encrypt` overwrites it with
the domain default instead of passing it through unchanged. -/
theorem chain_passthrough_counterexample :
    TacoService.encryptCondition "lynx" { chain := some 0, body := 42 }
      ≠ { chain := some 0, body := 42 } ∧
    TacoService.encryptCondition "lynx" { chain := some 0, body := 42 }
      = { chain := some 80002, body := 42 } := by
  refine ⟨by decide, rfl⟩

/-- C9 amended: a condition lacking an explicit chain field is passed to
the backend with the deterministic domain default (lynx, DEVNET, tapir
and TESTNET map to 80002, MAINNET to 137); a condition carrying a
*nonzero* chain is passed through unchanged, while a chain of 0 is
JS-falsy and is likewise replaced by the domain default. -/
theorem default_chain_by_domain (domain : String) (c : TacoCondition) (n : Nat)
    (hn : n ≠ 0) :
    (c.chain = none →
      TacoService.encryptCondition domain c
        = { c with chain := some (TacoService.getChainId domain) }) ∧
    (c.chain = some n → TacoService.encryptCondition domain c = c) ∧
    (c.chain = some 0 →
      TacoService.encryptCondition domain c
        = { c with chain := some (TacoService.getChainId domain) }) ∧
    TacoService.getChainId "lynx" = 80002 ∧
    TacoService.getChainId "DEVNET" = 80002 ∧
    TacoService.getChainId "tapir" = 80002 ∧
    TacoService.getChainId "TESTNET" = 80002 ∧
    TacoService.getChainId "MAINNET" = 137 := by
  refine ⟨fun h => ?_, fun h => ?_, fun h => ?_, by decide, by decide, by decide,
    by decide, by decide⟩ <;>
    simp [TacoService.encryptCondition, chainFalsy, h, hn]

theorem default_chain_by_domain_witness :
    TacoService.encryptCondition "MAINNET" { chain := none, body := 3 }
      = { chain := some 137, body := 3 } ∧
    TacoService.encryptCondition "MAINNET" { chain := some 80002, body := 3 }
      = { chain := some 80002, body := 3 } :=
  ⟨(default_chain_by_domain "MAINNET" { chain := none, body := 3 } 80002
      (by decide)).1 rfl,
   (default_chain_by_domain "MAINNET" { chain := some 80002, body := 3 } 80002
      (by decide)).2.1 rfl⟩

end Fileverse

